import Mathlib

/-!
Verification of the Flash-Ui generation orchestrator, live audio session and
collaboration sync layer.  The definitions below are a shallow embedding of
`src/index.tsx` (together with the shared types in `src/types.ts`): pure
functions of the source become Lean functions, the `setSessions` updater
pattern becomes an explicit state-passing function on `List Session`, and the
behaviour of the remote generative service is quantified over as explicit
adapter outcomes (chunk lists, failures, media results).
-/

/-- Status values of an artifact (the union of the four status strings in
`src/types.ts`: streaming, thinking, complete, error). -/
inductive ArtifactStatus
  | streaming
  | thinking
  | complete
  | error
deriving Repr, DecidableEq

/-- Artifact types, as the `ArtifactType` union of `src/types.ts`. -/
inductive ArtifactType
  | ui
  | image
  | video
  | chat
  | vision
  | audio
  | transcription
deriving Repr, DecidableEq

/-- Artifacts, as the `Artifact` interface of `src/types.ts`; the
`groundingLinks` entries are opaque payloads here, modelled as strings. -/
structure Artifact where
  id : String
  styleName : String
  html : String
  imageUrl : Option String
  videoUrl : Option String
  audioUrl : Option String
  text : Option String
  type : ArtifactType
  status : ArtifactStatus
  groundingLinks : Option (List String)
deriving Repr, DecidableEq

/-- Sessions, as the `Session` interface of `src/types.ts`. -/
structure Session where
  id : String
  prompt : String
  timestamp : Nat
  artifacts : List Artifact
deriving Repr, DecidableEq

/-- The state-update pattern used by every generation-task mutation in
`src/index.tsx` (`performGeneration` chunk, completion and error updates and
`handleRetry`): `prev.map(s => s.id === sessionId ? { ...s, artifacts:
s.artifacts.map(a => a.id === artifactId ? f(a) : a) } : s)`. -/
def updateArtifact (sessions : List Session) (sessionId artifactId : String)
    (f : Artifact → Artifact) : List Session :=
  sessions.map fun s =>
    if s.id == sessionId then
      { s with artifacts := s.artifacts.map fun a => if a.id == artifactId then f a else a }
    else s

/-- Session lookup `sessions.find(s => s.id === sessionId)` as in
`handleRetry`. -/
def getSession (sessions : List Session) (sessionId : String) : Option Session :=
  sessions.find? fun s => s.id == sessionId

/-- Look up an artifact by session id and artifact id. -/
def getArtifact (sessions : List Session) (sessionId artifactId : String) : Option Artifact :=
  (getSession sessions sessionId).bind fun s => s.artifacts.find? fun a => a.id == artifactId

/-- The status of the artifact `artifactId` of session `sessionId`, when present. -/
def statusOf (sessions : List Session) (sessionId artifactId : String) :
    Option ArtifactStatus :=
  (getArtifact sessions sessionId artifactId).map Artifact.status

/-- Character-level scan of the JS global regex replace
`text.replace(/\x60\x60\x60html|\x60\x60\x60/g, '')` from `performGeneration`:
at each position the alternative `html`-fence is tried first, then the bare
fence, otherwise one character is emitted. -/
def stripFencesAux : List Char → List Char
  | '`' :: '`' :: '`' :: 'h' :: 't' :: 'm' :: 'l' :: rest => stripFencesAux rest
  | '`' :: '`' :: '`' :: rest => stripFencesAux rest
  | c :: rest => c :: stripFencesAux rest
  | [] => []

/-- Fence stripping on strings, as applied to the accumulated stream text in
ui mode. -/
def stripFences (s : String) : String :=
  String.mk (stripFencesAux s.data)

/-- Whitespace as stripped by the JS `String.prototype.trim` used in the
`handleSendMessage` guard (restricted to the ASCII whitespace that can occur
in prompt input). -/
def isWs (c : Char) : Bool :=
  c = ' ' || c = '\t' || c = '\n' || c = '\r'

/-- Executable model of `inputValue.trim()`: drop whitespace from both ends. -/
def jsTrim (s : String) : String :=
  String.mk (((s.data.dropWhile isWs).reverse.dropWhile isWs).reverse)

/-- Upper-case mode name `genMode.toUpperCase()` used for the placeholder
artifact's `styleName`. -/
def styleNameOf : ArtifactType → String
  | .ui => "UI"
  | .image => "IMAGE"
  | .video => "VIDEO"
  | .chat => "CHAT"
  | .vision => "VISION"
  | .audio => "AUDIO"
  | .transcription => "TRANSCRIPTION"

/-- The placeholder artifact built by `handleSendMessage` (`src/index.tsx`
lines 351-357). -/
def mkInitialArtifact (artifactId : String) (genMode : ArtifactType)
    (isThinkingEnabled : Bool) : Artifact :=
  { id := artifactId
    styleName := styleNameOf genMode
    html := ""
    imageUrl := none
    videoUrl := none
    audioUrl := none
    text := none
    type := genMode
    status := if isThinkingEnabled then .thinking else .streaming
    groundingLinks := none }

/-- The session built by `handleSendMessage` (`src/index.tsx` lines 343-365):
one new session holding exactly one placeholder artifact.  `sessionId` and
`artifactId` stand for the two `generateId()` calls and `now` for
`Date.now()`. -/
def mkNewSession (sessionId : String) (prompt : String) (now : Nat)
    (artifactId : String) (genMode : ArtifactType) (isThinkingEnabled : Bool) : Session :=
  { id := sessionId
    prompt := prompt
    timestamp := now
    artifacts := [mkInitialArtifact artifactId genMode isThinkingEnabled] }

/-- Prompt submission `handleSendMessage`: the empty-prompt/loading guard and
the append of the new single-artifact session. -/
def handleSendMessage (inputValue : String) (isLoading : Bool) (genMode : ArtifactType)
    (isThinkingEnabled : Bool) (sessions : List Session)
    (sessionId artifactId : String) (now : Nat) : List Session :=
  if jsTrim inputValue == "" || isLoading then sessions
  else sessions ++ [mkNewSession sessionId inputValue now artifactId genMode isThinkingEnabled]

/-- JS object key write `presence[TAB_ID] = Date.now()`: updates the entry in
place when the key exists, otherwise appends it. -/
def upsert (m : List (String × Nat)) (k : String) (v : Nat) : List (String × Nat) :=
  if m.any fun p => p.1 == k then
    m.map fun p => if p.1 == k then (k, v) else p
  else m ++ [(k, v)]

/-- Presence tick `heartbeat` (`src/index.tsx` lines 67-79): writes this tab's id with the
current timestamp into the presence map, then keeps exactly the entries whose
age is below 10000 ms and republishes that pruned map. -/
def heartbeat (presence : List (String × Nat)) (tabId : String) (now : Nat) :
    List (String × Nat) :=
  let withSelf := upsert presence tabId now
  withSelf.filter fun p => now - p.2 < 10000

/-- The session-replication effect (`src/index.tsx` lines 113-117): the value
held under the `omni-sessions` key after the effect runs.  The serialized blob
is modelled by the session list itself (`JSON.stringify` is injective and is
inverted by `JSON.parse` on the reading side). -/
def syncSessionsEffect (isCollabEnabled : Bool) (sessions : List Session)
    (stored : Option (List Session)) : Option (List Session) :=
  if isCollabEnabled && decide (0 < sessions.length) then some sessions else stored

/-- Session clearing `clearSessions` (`src/index.tsx` lines 404-407): empties the local session
list and removes the `omni-sessions` key, regardless of the previous state. -/
def clearSessions (_st : List Session × Option (List Session)) :
    List Session × Option (List Session) :=
  ([], none)

/-- A scheduled playback buffer: `source.start(nextStartTime)` plus the
decoded buffer's duration.  Times are rational seconds. -/
structure SourceNode where
  startTime : Rat
  duration : Rat
deriving Repr, DecidableEq

/-- The playback portion of the live session state: `nextStartTimeRef`,
`sourcesRef` (pending scheduled sources) and, for specification purposes, the
sources that have received `stop()`. -/
structure LiveAudioState where
  nextStartTime : Rat
  sources : List SourceNode
  stopped : List SourceNode
deriving Repr, DecidableEq

/-- The audio branch of the `onmessage` callback (`src/index.tsx` lines
192-204): clamp the play head to `max(nextStartTime, ctx.currentTime)`, start
the new source there, advance the play head by the buffer's duration and add
the source to the pending set. -/
def onAudioChunk (st : LiveAudioState) (now duration : Rat) : LiveAudioState :=
  let startTime := max st.nextStartTime now
  { nextStartTime := startTime + duration
    sources := st.sources ++ [{ startTime := startTime, duration := duration }]
    stopped := st.stopped }

/-- The interruption branch of the `onmessage` callback (`src/index.tsx` lines
205-209): `stop()` every pending source, clear the pending set and reset the
play head to zero. -/
def onInterrupted (st : LiveAudioState) : LiveAudioState :=
  { nextStartTime := 0
    sources := []
    stopped := st.stopped ++ st.sources }

/-- Events observed by the live session's playback side. -/
inductive LiveEvent
  | audioChunk (now duration : Rat)
  | interrupted
deriving Repr

/-- Dispatch one `onmessage` event. -/
def liveStep (st : LiveAudioState) : LiveEvent → LiveAudioState
  | .audioChunk now duration => onAudioChunk st now duration
  | .interrupted => onInterrupted st

/-- Run a sequence of live events. -/
def liveRun (st : LiveAudioState) (events : List LiveEvent) : LiveAudioState :=
  events.foldl liveStep st

/-- One chunk yielded by `generateContentStream`: `chunk.text` (possibly
absent, coalesced with `''`) and the optional grounding metadata payload. -/
structure StreamChunk where
  text : Option String
  grounding : Option (List String)
deriving Repr, DecidableEq

/-- The individual session-store writes a generation task can perform
(`performGeneration` chunk/completion/media/error updates and the
`handleRetry` reset).  `chunkOp` carries the accumulated text at that
iteration and the generation mode in effect for the run. -/
inductive GenOp
  | chunkOp (mode : ArtifactType) (accText : String) (grounding : Option (List String))
  | completeOp
  | videoCompleteOp (uri : String)
  | imageCompleteOp (data : String)
  | errorOp (msg : String)
  | retryOp (isThinkingEnabled : Bool)
deriving Repr, DecidableEq

/-- The per-artifact replacement function each operation applies, read off the
corresponding object spread in `src/index.tsx`.  `API_KEY` stands for
`process.env.API_KEY`. -/
def opUpdate : GenOp → Artifact → Artifact
  | .chunkOp mode accText grounding, a =>
      { a with
        html := if mode == .ui then stripFences accText else accText
        text := if mode == .ui then none else some accText
        groundingLinks :=
          match grounding with
          | some g => some g
          | none => a.groundingLinks
        status := .streaming }
  | .completeOp, a => { a with status := .complete }
  | .videoCompleteOp uri, a =>
      { a with videoUrl := some (uri ++ "&key=API_KEY"), status := .complete }
  | .imageCompleteOp data, a =>
      { a with imageUrl := some ("data:image/png;base64," ++ data), status := .complete }
  | .errorOp msg, a => { a with status := .error, html := msg }
  | .retryOp isThinkingEnabled, a =>
      { a with
        status := if isThinkingEnabled then .thinking else .streaming
        html := ""
        text := some "" }

/-- Apply one generation-task operation to the session store. -/
def applyOp (sessionId artifactId : String) (st : List Session) (op : GenOp) :
    List Session :=
  updateArtifact st sessionId artifactId (opUpdate op)

/-- The chunk operations produced by the `for await` loop of
`performGeneration`: the accumulator grows by `chunk.text || ''` at each
iteration and the artifact is republished with the accumulated text. -/
def chunkOps (mode : ArtifactType) (acc : String) : List StreamChunk → List GenOp
  | [] => []
  | c :: rest =>
      GenOp.chunkOp mode (acc ++ c.text.getD "") c.grounding ::
        chunkOps mode (acc ++ c.text.getD "") rest

/-- The error write performed when the chat-mode TTS follow-up call throws
after the completion write (`src/index.tsx` lines 306-321 inside the same
`try`, landing in the catch of lines 323-337); empty in every other mode. -/
def ttsOps (mode : ArtifactType) (ttsError : Option String) : List GenOp :=
  match mode, ttsError with
  | .chat, some msg => [.errorOp msg]
  | _, _ => []

/-- How the external service behaves during one `performGeneration` call:
a media locator for the video/image branches, a successfully exhausted stream
(with, in chat mode, an optional failure of the follow-up TTS call), or a
raise after consuming a prefix of chunks. -/
inductive RunBehavior
  | mediaResult (locator : String)
  | streamResult (chunks : List StreamChunk) (ttsError : Option String)
  | failure (chunks : List StreamChunk) (msg : String)
deriving Repr, DecidableEq

/-- The session-store operations one `performGeneration` call performs, per
branch of `src/index.tsx` lines 224-341.  In the video/image branches no
intermediate chunk write occurs; in chat mode a TTS failure after the
completion write lands in the same catch block and writes an error. -/
def genOps (mode : ArtifactType) : RunBehavior → List GenOp
  | .mediaResult locator =>
      if mode = .video then [.videoCompleteOp locator]
      else if mode = .image then [.imageCompleteOp locator]
      else []
  | .streamResult chunks ttsError =>
      if mode = .video ∨ mode = .image then []
      else chunkOps mode "" chunks ++ [.completeOp] ++ ttsOps mode ttsError
  | .failure chunks msg =>
      (if mode = .video ∨ mode = .image then [] else chunkOps mode "" chunks) ++
        [.errorOp msg]

/-- Fold a list of operations over the session store. -/
def genFinal (sessionId artifactId : String) (st : List Session)
    (ops : List GenOp) : List Session :=
  ops.foldl (applyOp sessionId artifactId) st

/-- Generation run `performGeneration` (`src/index.tsx` lines 217-341): final session store
together with the `isLoading` flag, which the `finally` block always resets to
`false`. -/
def performGeneration (sessionId artifactId : String) (mode : ArtifactType)
    (st : List Session) (b : RunBehavior) : List Session × Bool :=
  (genFinal sessionId artifactId st (genOps mode b), false)

/-- Retry `handleRetry` (`src/index.tsx` lines 367-377): a no-op when the session is
unknown or a generation is in flight; otherwise resets the artifact's status
per the current thinking toggle, clears `html`/`text`, and re-invokes
generation with the session's original prompt (returned as the second
component). -/
def handleRetry (sessions : List Session) (isLoading : Bool)
    (isThinkingEnabled : Bool) (sessionId artifactId : String) :
    List Session × Option String :=
  match sessions.find? fun s => s.id == sessionId with
  | none => (sessions, none)
  | some session =>
      if isLoading then (sessions, none)
      else
        (updateArtifact sessions sessionId artifactId
           (opUpdate (.retryOp isThinkingEnabled)),
         some session.prompt)

/-- One full operation trace for a single artifact: the run started at
creation followed by any number of retries, each retry re-running generation
under the settings current at that time. -/
structure GenRun where
  mode : ArtifactType
  behavior : RunBehavior
deriving Repr, DecidableEq

/-- The operations contributed by a list of retries: each retry contributes
its reset (under the thinking toggle current at that time) followed by the
operations of the re-run. -/
def retriesOps (retries : List (Bool × GenRun)) : List GenOp :=
  retries.foldr (fun r acc => GenOp.retryOp r.1 :: genOps r.2.mode r.2.behavior ++ acc) []

/-- All session-store operations applied to one artifact across its first run
and subsequent retries. -/
def traceOps (firstRun : GenRun) (retries : List (Bool × GenRun)) : List GenOp :=
  genOps firstRun.mode firstRun.behavior ++ retriesOps retries

/-- The successive session-store states along an operation list, including the
initial state. -/
def genStates (sessionId artifactId : String) (st : List Session)
    (ops : List GenOp) : List (List Session) :=
  ops.scanl (applyOp sessionId artifactId) st

/-- The successive statuses of the tracked artifact along an operation list. -/
def statusTrace (sessionId artifactId : String) (st : List Session)
    (ops : List GenOp) : List (Option ArtifactStatus) :=
  (genStates sessionId artifactId st ops).map fun s => statusOf s sessionId artifactId

/-- The status every operation writes into the artifact it touches. -/
def opStatus : GenOp → ArtifactStatus
  | .chunkOp _ _ _ => .streaming
  | .completeOp => .complete
  | .videoCompleteOp _ => .complete
  | .imageCompleteOp _ => .complete
  | .errorOp _ => .error
  | .retryOp isThinkingEnabled => if isThinkingEnabled then .thinking else .streaming

/-- Status dynamics induced on the tracked artifact by one operation. -/
def statusStep (x : Option ArtifactStatus) (op : GenOp) : Option ArtifactStatus :=
  x.map fun _ => opStatus op

/-- Whether an operation is the externally triggered retry reset. -/
def isRetryReset : GenOp → Bool
  | .retryOp _ => true
  | _ => false

/-- Whether an operation is an error write from a catch block. -/
def isErrorWrite : GenOp → Bool
  | .errorOp _ => true
  | _ => false

/-- The amended transition discipline: a step either leaves the status
unchanged, starts from a non-terminal status, is a retry reset, or is the
chat-mode TTS-failure error write that moves `complete` to `error`. -/
def allowedStep (op : GenOp) (x y : Option ArtifactStatus) : Prop :=
  x = y ∨ x = some .streaming ∨ x = some .thinking ∨ isRetryReset op = true ∨
    (isErrorWrite op = true ∧ x = some .complete ∧ y = some .error)

instance (op : GenOp) (x y : Option ArtifactStatus) : Decidable (allowedStep op x y) := by
  unfold allowedStep; infer_instance

/-- The observable shape of a session: everything except the artifacts'
mutable payload fields. -/
def sessionShape (s : Session) : String × String × Nat × List String :=
  (s.id, s.prompt, s.timestamp, s.artifacts.map Artifact.id)

/-- Cumulative effect of a list of operations on a single artifact value. -/
def applyOps (a : Artifact) (ops : List GenOp) : Artifact :=
  ops.foldl (fun b op => opUpdate op b) a

/-- The (operation, source status, target status) triples of a run. -/
def stepsOf (x : Option ArtifactStatus) :
    List GenOp → List (GenOp × Option ArtifactStatus × Option ArtifactStatus)
  | [] => []
  | op :: rest => (op, x, statusStep x op) :: stepsOf (statusStep x op) rest

/-- A status that permits further generation writes: not `complete`, not
`error` (absence of the artifact also qualifies, as all writes are then
no-ops). -/
def nonTerminal (x : Option ArtifactStatus) : Prop :=
  x ≠ some .complete ∧ x ≠ some .error

/-- The text accumulator over a chunk list, starting from `acc`. -/
def textAccum (acc : String) (chunks : List StreamChunk) : String :=
  chunks.foldl (fun s c => s ++ c.text.getD "") acc

/-- A concrete artifact for witness states. -/
def demoArtifact (aid : String) (st : ArtifactStatus) : Artifact :=
  { id := aid
    styleName := "UI"
    html := "h"
    imageUrl := none
    videoUrl := none
    audioUrl := none
    text := none
    type := .ui
    status := st
    groundingLinks := none }

/-- A concrete session holding two artifacts. -/
def demoSession1 : Session :=
  { id := "s1", prompt := "p1", timestamp := 0,
    artifacts := [demoArtifact "a1" .streaming, demoArtifact "a2" .complete] }

/-- A second concrete session. -/
def demoSession2 : Session :=
  { id := "s2", prompt := "p2", timestamp := 1,
    artifacts := [demoArtifact "b1" .error] }

/-- A concrete two-session store for witness instantiations. -/
def demoState : List Session := [demoSession1, demoSession2]

/-- A ui-mode artifact created with thinking disabled, whose run failed. -/
def retryDemoErrored : List Session :=
  (performGeneration "s1" "a1" ArtifactType.ui
    (handleSendMessage "p" false ArtifactType.ui false [] "s1" "a1" 0)
    (.failure [] "boom")).1

/-- The state after retrying that artifact with the thinking toggle now on. -/
def retryDemoAfterRetry : List Session :=
  (handleRetry retryDemoErrored false true "s1" "a1").1

/-- Every per-artifact update of a generation task preserves the artifact id. -/
theorem opUpdate_id (op : GenOp) (a : Artifact) : (opUpdate op a).id = a.id := by
  cases op <;> rfl

/-- Every per-artifact update writes exactly the status `opStatus op`. -/
theorem opUpdate_status (op : GenOp) (a : Artifact) : (opUpdate op a).status = opStatus op := by
  cases op <;> rfl

/-- Two boolean predicates that agree pointwise find the same element. -/
theorem find?_congr_pred {α : Type} (p q : α → Bool) (h : ∀ a, p a = q a) (l : List α) :
    l.find? p = l.find? q := by
  have hpq : p = q := funext h
  rw [hpq]

/-- Searching a per-element-rewritten artifact list for the rewritten id finds
the rewritten artifact. -/
theorem find?_update_self (l : List Artifact) (aid : String) (f : Artifact → Artifact)
    (hf : ∀ a, (f a).id = a.id) :
    (l.map fun a => if a.id == aid then f a else a).find? (fun a => a.id == aid)
      = (l.find? fun a => a.id == aid).map f := by
  induction l with
  | nil => rfl
  | cons a rest ih =>
    by_cases h : a.id = aid
    · have hb : (a.id == aid) = true := by simp [h]
      have hfb : ((f a).id == aid) = true := by rw [hf a]; exact hb
      rw [List.map_cons, if_pos hb, List.find?_cons, List.find?_cons, hb, hfb]
      rfl
    · have hb : (a.id == aid) = false := by simp [h]
      have hnb : ¬(a.id == aid) = true := by simp [h]
      rw [List.map_cons, if_neg hnb, List.find?_cons, List.find?_cons, hb]
      exact ih

/-- Searching a per-element-rewritten artifact list for a different id is
unaffected by the rewrite. -/
theorem find?_update_other (l : List Artifact) (aid aid' : String) (hne : aid' ≠ aid)
    (f : Artifact → Artifact) (hf : ∀ a, (f a).id = a.id) :
    (l.map fun a => if a.id == aid then f a else a).find? (fun a => a.id == aid')
      = l.find? fun a => a.id == aid' := by
  induction l with
  | nil => rfl
  | cons a rest ih =>
    by_cases h : a.id = aid
    · have hb : (a.id == aid) = true := by simp [h]
      have h2 : (a.id == aid') = false := by
        simp [h]; exact fun hc => hne hc.symm
      have h1 : ((f a).id == aid') = false := by rw [hf a]; exact h2
      rw [List.map_cons, if_pos hb, List.find?_cons, List.find?_cons, h1, h2]
      exact ih
    · have hnb : ¬(a.id == aid) = true := by simp [h]
      rw [List.map_cons, if_neg hnb, List.find?_cons, List.find?_cons]
      by_cases h' : a.id = aid'
      · rw [(by simp [h'] : (a.id == aid') = true)]
      · rw [(by simp [h'] : (a.id == aid') = false)]
        exact ih

/-- Lemma: `updateArtifact` rewrites each session's artifact list in place; looking
up any session commutes with the rewrite. -/
theorem getSession_updateArtifact (st : List Session) (sid sid' aid : String)
    (f : Artifact → Artifact) :
    getSession (updateArtifact st sid aid f) sid'
      = (getSession st sid').map fun s =>
          if s.id == sid then
            { s with artifacts := s.artifacts.map fun a => if a.id == aid then f a else a }
          else s := by
  unfold getSession updateArtifact
  rw [List.find?_map]
  apply congrArg
  apply find?_congr_pred
  intro s
  by_cases h : s.id = sid <;> simp [h]

/-- Lemma: `updateArtifact` replaces the targeted artifact by its rewrite. -/
theorem getArtifact_updateArtifact_self (st : List Session) (sid aid : String)
    (f : Artifact → Artifact) (hf : ∀ a, (f a).id = a.id) :
    getArtifact (updateArtifact st sid aid f) sid aid = (getArtifact st sid aid).map f := by
  unfold getArtifact
  rw [getSession_updateArtifact]
  cases hs : getSession st sid with
  | none => rfl
  | some s =>
    have hs' : List.find? (fun x => x.id == sid) st = some s := hs
    have hid : (s.id == sid) = true := by simpa using List.find?_some hs'
    rw [Option.map_some', Option.some_bind, Option.some_bind, if_pos hid]
    exact find?_update_self s.artifacts aid f hf

/-- Lemma: `updateArtifact` leaves every other artifact (different artifact id, or a
different session) untouched. -/
theorem getArtifact_updateArtifact_frame (st : List Session) (sid aid sid' aid' : String)
    (f : Artifact → Artifact) (hf : ∀ a, (f a).id = a.id)
    (h : ¬(sid' = sid ∧ aid' = aid)) :
    getArtifact (updateArtifact st sid aid f) sid' aid' = getArtifact st sid' aid' := by
  unfold getArtifact
  rw [getSession_updateArtifact]
  cases hs : getSession st sid' with
  | none => rfl
  | some s =>
    have hs' : List.find? (fun x => x.id == sid') st = some s := hs
    have hid : (s.id == sid') = true := by simpa using List.find?_some hs'
    rw [Option.map_some', Option.some_bind, Option.some_bind]
    by_cases hsid : s.id = sid
    · have haid : aid' ≠ aid := by
        intro hc
        exact h ⟨by rw [← (by simpa using hid : s.id = sid'), hsid], hc⟩
      rw [if_pos (by simp [hsid])]
      exact find?_update_other s.artifacts aid aid' haid f hf
    · rw [if_neg (by simp [hsid])]

/-- Lemma: `updateArtifact` preserves every session's id, prompt, timestamp, artifact
count and artifact id sequence. -/
theorem sessionShape_updateArtifact (st : List Session) (sid aid : String)
    (f : Artifact → Artifact) (hf : ∀ a, (f a).id = a.id) :
    (updateArtifact st sid aid f).map sessionShape = st.map sessionShape := by
  unfold updateArtifact
  rw [List.map_map]
  apply List.map_congr_left
  intro s _
  simp only [Function.comp_apply]
  by_cases h : s.id = sid
  · rw [if_pos (by simp [h])]
    unfold sessionShape
    simp only [List.map_map]
    refine congrArg _ (congrArg _ (congrArg _ ?_))
    apply List.map_congr_left
    intro a _
    show Artifact.id (if a.id == aid then f a else a) = a.id
    by_cases ha : a.id = aid
    · rw [if_pos (by simp [ha])]; exact hf a
    · rw [if_neg (by simp [ha])]
  · rw [if_neg (by simp [h])]

/-- The tracked artifact of a single operation evolves by `statusStep`. -/
theorem statusOf_applyOp (sid aid : String) (st : List Session) (op : GenOp) :
    statusOf (applyOp sid aid st op) sid aid = statusStep (statusOf st sid aid) op := by
  unfold statusOf applyOp statusStep
  rw [getArtifact_updateArtifact_self _ _ _ _ (opUpdate_id op)]
  cases getArtifact st sid aid with
  | none => rfl
  | some a => simp [opUpdate_status]

/-- One operation rewrites the tracked artifact by `opUpdate`. -/
theorem getArtifact_applyOp_self (sid aid : String) (st : List Session) (op : GenOp) :
    getArtifact (applyOp sid aid st op) sid aid = (getArtifact st sid aid).map (opUpdate op) :=
  getArtifact_updateArtifact_self st sid aid (opUpdate op) (opUpdate_id op)

/-- One operation leaves every other artifact untouched. -/
theorem getArtifact_applyOp_frame (sid aid sid' aid' : String) (st : List Session)
    (op : GenOp) (h : ¬(sid' = sid ∧ aid' = aid)) :
    getArtifact (applyOp sid aid st op) sid' aid' = getArtifact st sid' aid' :=
  getArtifact_updateArtifact_frame st sid aid sid' aid' (opUpdate op) (opUpdate_id op) h

/-- A run of operations rewrites the tracked artifact by the cumulative
`applyOps`. -/
theorem getArtifact_genFinal_self (sid aid : String) (ops : List GenOp)
    (st : List Session) :
    getArtifact (genFinal sid aid st ops) sid aid
      = (getArtifact st sid aid).map fun a => applyOps a ops := by
  induction ops generalizing st with
  | nil =>
    show getArtifact st sid aid = Option.map _ (getArtifact st sid aid)
    cases getArtifact st sid aid <;> rfl
  | cons op rest ih =>
    show getArtifact (genFinal sid aid (applyOp sid aid st op) rest) sid aid = _
    rw [ih, getArtifact_applyOp_self, Option.map_map]
    rfl

/-- A run of operations leaves every other artifact untouched. -/
theorem getArtifact_genFinal_frame (sid aid sid' aid' : String) (ops : List GenOp)
    (st : List Session) (h : ¬(sid' = sid ∧ aid' = aid)) :
    getArtifact (genFinal sid aid st ops) sid' aid' = getArtifact st sid' aid' := by
  induction ops generalizing st with
  | nil => rfl
  | cons op rest ih =>
    show getArtifact (genFinal sid aid (applyOp sid aid st op) rest) sid' aid' = _
    rw [ih, getArtifact_applyOp_frame _ _ _ _ _ _ h]

/-- The tracked artifact's status after a run is the fold of `statusStep`. -/
theorem statusOf_genFinal (sid aid : String) (ops : List GenOp) (st : List Session) :
    statusOf (genFinal sid aid st ops) sid aid
      = ops.foldl statusStep (statusOf st sid aid) := by
  induction ops generalizing st with
  | nil => rfl
  | cons op rest ih =>
    show statusOf (genFinal sid aid (applyOp sid aid st op) rest) sid aid = _
    rw [ih, statusOf_applyOp, List.foldl_cons]

/-- The status trace of a run is the `scanl` of the status dynamics. -/
theorem statusTrace_eq_scanl (sid aid : String) (st : List Session) (ops : List GenOp) :
    statusTrace sid aid st ops = ops.scanl statusStep (statusOf st sid aid) := by
  unfold statusTrace genStates
  induction ops generalizing st with
  | nil => rfl
  | cons op rest ih =>
    simp only [List.scanl_cons, List.singleton_append, List.map_cons]
    rw [ih (applyOp sid aid st op), statusOf_applyOp]

/-- The zipped adjacent status transitions of a `scanl` trace are exactly
`stepsOf`. -/
theorem zip_scanl_stepsOf (ops : List GenOp) (x : Option ArtifactStatus) :
    ops.zip ((ops.scanl statusStep x).zip (ops.scanl statusStep x).tail)
      = stepsOf x ops := by
  induction ops generalizing x with
  | nil => rfl
  | cons op rest ih =>
    cases rest with
    | nil => rfl
    | cons op2 rest2 =>
      have h2 := ih (statusStep x op)
      simp only [List.scanl_cons, List.singleton_append, List.tail_cons,
        List.zip_cons_cons, stepsOf] at h2 ⊢
      rw [← h2]

/-- Lemma: `statusStep` from a non-terminal source is always an allowed step. -/
theorem allowedStep_statusStep (op : GenOp) (x : Option ArtifactStatus)
    (hx : nonTerminal x) : allowedStep op x (statusStep x op) := by
  cases x with
  | none => exact Or.inl rfl
  | some s =>
    cases s with
    | streaming => exact Or.inr (Or.inl rfl)
    | thinking => exact Or.inr (Or.inr (Or.inl rfl))
    | complete => exact absurd rfl hx.1
    | error => exact absurd rfl hx.2

/-- Mapping a non-terminal constant status over an option stays non-terminal. -/
theorem nonTerminal_map_const (x : Option ArtifactStatus) (c : ArtifactStatus)
    (hc : c ≠ .complete ∧ c ≠ .error) :
    nonTerminal (x.map fun _ => c) := by
  cases x with
  | none => exact ⟨Option.noConfusion, Option.noConfusion⟩
  | some s =>
    refine ⟨fun h => hc.1 ?_, fun h => hc.2 ?_⟩ <;> exact Option.some.inj h

/-- Lemma: `stepsOf` distributes over list append, threading the folded status. -/
theorem stepsOf_append (l1 l2 : List GenOp) (x : Option ArtifactStatus) :
    stepsOf x (l1 ++ l2) = stepsOf x l1 ++ stepsOf (l1.foldl statusStep x) l2 := by
  induction l1 generalizing x with
  | nil => rfl
  | cons op rest ih =>
    simp only [List.cons_append, stepsOf, List.foldl_cons]
    exact congrArg _ (ih (statusStep x op))

/-- Every step of a chunk sequence starting from a non-terminal status is
allowed. -/
theorem allowed_stepsOf_chunkOps (mode : ArtifactType) (chunks : List StreamChunk) :
    ∀ (acc : String) (x : Option ArtifactStatus), nonTerminal x →
      ∀ p ∈ stepsOf x (chunkOps mode acc chunks), allowedStep p.1 p.2.1 p.2.2 := by
  induction chunks with
  | nil =>
    intro acc x _ p hp
    simp only [chunkOps, stepsOf, List.not_mem_nil] at hp
  | cons c rest ih =>
    intro acc x hx p hp
    simp only [chunkOps, stepsOf, List.mem_cons] at hp
    rcases hp with h | h
    · rw [h]
      exact allowedStep_statusStep _ _ hx
    · exact ih _ _ (nonTerminal_map_const x .streaming (by simp)) p h

/-- The folded status after a chunk sequence stays non-terminal. -/
theorem nonTerminal_foldl_chunkOps (mode : ArtifactType) (chunks : List StreamChunk) :
    ∀ (acc : String) (x : Option ArtifactStatus), nonTerminal x →
      nonTerminal ((chunkOps mode acc chunks).foldl statusStep x) := by
  induction chunks with
  | nil => intro acc x hx; exact hx
  | cons c rest ih =>
    intro acc x hx
    exact ih _ _ (nonTerminal_map_const x .streaming (by simp))

/-- Lemma: `ttsOps` is empty when there is no TTS error. -/
theorem ttsOps_none (mode : ArtifactType) : ttsOps mode none = [] := by
  cases mode <;> rfl

/-- Lemma: `ttsOps` is empty outside chat mode. -/
theorem ttsOps_not_chat (mode : ArtifactType) (t : Option String)
    (h : mode ≠ ArtifactType.chat) : ttsOps mode t = [] := by
  cases mode <;> cases t <;> first | rfl | exact absurd rfl h

/-- Every step of one generation run starting from a non-terminal status is
allowed: chunk writes and the completion/error write start from a
non-terminal source, and the only write after a completion is the chat-mode
TTS error write, which moves `complete` to `error`. -/
theorem allowed_stepsOf_genOps (mode : ArtifactType) (b : RunBehavior)
    (x : Option ArtifactStatus) (hx : nonTerminal x) :
    ∀ p ∈ stepsOf x (genOps mode b), allowedStep p.1 p.2.1 p.2.2 := by
  intro p hp
  cases b with
  | mediaResult locator =>
    simp only [genOps] at hp
    by_cases h1 : mode = ArtifactType.video
    · rw [if_pos h1] at hp
      simp only [stepsOf, List.mem_cons, List.not_mem_nil, or_false] at hp
      rw [hp]
      exact allowedStep_statusStep _ _ hx
    · rw [if_neg h1] at hp
      by_cases h2 : mode = ArtifactType.image
      · rw [if_pos h2] at hp
        simp only [stepsOf, List.mem_cons, List.not_mem_nil, or_false] at hp
        rw [hp]
        exact allowedStep_statusStep _ _ hx
      · rw [if_neg h2] at hp
        simp only [stepsOf, List.not_mem_nil] at hp
  | streamResult chunks ttsError =>
    simp only [genOps] at hp
    by_cases h1 : mode = ArtifactType.video ∨ mode = ArtifactType.image
    · rw [if_pos h1] at hp
      simp only [stepsOf, List.not_mem_nil] at hp
    · rw [if_neg h1] at hp
      rw [stepsOf_append, stepsOf_append, List.mem_append, List.mem_append] at hp
      rcases hp with (hp | hp) | hp
      · exact allowed_stepsOf_chunkOps mode chunks "" x hx p hp
      · have hx1 : nonTerminal ((chunkOps mode "" chunks).foldl statusStep x) :=
          nonTerminal_foldl_chunkOps mode chunks "" x hx
        simp only [stepsOf, List.mem_cons, List.not_mem_nil, or_false] at hp
        rw [hp]
        exact allowedStep_statusStep _ _ hx1
      · have hfold : List.foldl statusStep x (chunkOps mode "" chunks ++ [GenOp.completeOp])
            = ((chunkOps mode "" chunks).foldl statusStep x).map
                fun _ => ArtifactStatus.complete := by
          rw [List.foldl_append]; rfl
        rw [hfold] at hp
        cases ttsError with
        | none =>
          rw [ttsOps_none] at hp
          simp only [stepsOf, List.not_mem_nil] at hp
        | some msg =>
          by_cases hc : mode = ArtifactType.chat
          · subst hc
            show allowedStep p.1 p.2.1 p.2.2
            simp only [ttsOps, stepsOf, List.mem_cons, List.not_mem_nil, or_false] at hp
            rw [hp]
            cases (chunkOps ArtifactType.chat "" chunks).foldl statusStep x with
            | none => exact Or.inl rfl
            | some s =>
              exact Or.inr (Or.inr (Or.inr (Or.inr ⟨rfl, rfl, rfl⟩)))
          · rw [ttsOps_not_chat mode (some msg) hc] at hp
            simp only [stepsOf, List.not_mem_nil] at hp
  | failure chunks msg =>
    simp only [genOps] at hp
    rw [stepsOf_append, List.mem_append] at hp
    rcases hp with hp | hp
    · by_cases h1 : mode = ArtifactType.video ∨ mode = ArtifactType.image
      · rw [if_pos h1] at hp
        simp only [stepsOf, List.not_mem_nil] at hp
      · rw [if_neg h1] at hp
        exact allowed_stepsOf_chunkOps mode chunks "" x hx p hp
    · have hx1 : nonTerminal ((if mode = ArtifactType.video ∨ mode = ArtifactType.image
          then ([] : List GenOp) else chunkOps mode "" chunks).foldl statusStep x) := by
        by_cases h1 : mode = ArtifactType.video ∨ mode = ArtifactType.image
        · rw [if_pos h1]; exact hx
        · rw [if_neg h1]; exact nonTerminal_foldl_chunkOps mode chunks "" x hx
      simp only [stepsOf, List.mem_cons, List.not_mem_nil, or_false] at hp
      rw [hp]
      exact allowedStep_statusStep _ _ hx1

/-- Every step contributed by retries is allowed, from any starting status:
the retry reset itself is the sanctioned exception, and it re-establishes a
non-terminal status for the re-run that follows. -/
theorem allowed_stepsOf_retriesOps (retries : List (Bool × GenRun)) :
    ∀ (x : Option ArtifactStatus), ∀ p ∈ stepsOf x (retriesOps retries),
      allowedStep p.1 p.2.1 p.2.2 := by
  induction retries with
  | nil =>
    intro x p hp
    simp only [retriesOps, List.foldr_nil, stepsOf, List.not_mem_nil] at hp
  | cons r rest ih =>
    intro x p hp
    have hshape : retriesOps (r :: rest)
        = GenOp.retryOp r.1 :: (genOps r.2.mode r.2.behavior ++ retriesOps rest) := rfl
    rw [hshape] at hp
    simp only [stepsOf, List.mem_cons] at hp
    rcases hp with hp | hp
    · rw [hp]
      exact Or.inr (Or.inr (Or.inr (Or.inl rfl)))
    · rw [stepsOf_append, List.mem_append] at hp
      have hy : nonTerminal (statusStep x (GenOp.retryOp r.1)) := by
        show nonTerminal (x.map fun _ => opStatus (GenOp.retryOp r.1))
        apply nonTerminal_map_const
        show (if r.1 then ArtifactStatus.thinking else ArtifactStatus.streaming) ≠ _ ∧
          (if r.1 then ArtifactStatus.thinking else ArtifactStatus.streaming) ≠ _
        cases r.1 <;> refine ⟨?_, ?_⟩ <;> decide
      rcases hp with hp | hp
      · exact allowed_stepsOf_genOps r.2.mode r.2.behavior _ hy p hp
      · exact ih _ p hp

/-- Every step of a full creation-run-retry trace starting from a
non-terminal status is allowed. -/
theorem allowed_stepsOf_traceOps (firstRun : GenRun) (retries : List (Bool × GenRun))
    (x : Option ArtifactStatus) (hx : nonTerminal x) :
    ∀ p ∈ stepsOf x (traceOps firstRun retries), allowedStep p.1 p.2.1 p.2.2 := by
  intro p hp
  unfold traceOps at hp
  rw [stepsOf_append, List.mem_append] at hp
  rcases hp with hp | hp
  · exact allowed_stepsOf_genOps firstRun.mode firstRun.behavior x hx p hp
  · exact allowed_stepsOf_retriesOps retries _ p hp

/-- An absent artifact stays absent: the status trace from `none` is
constantly `none`. -/
theorem scanl_statusStep_none (ops : List GenOp) :
    ∀ y ∈ List.scanl statusStep none ops, y = none := by
  induction ops with
  | nil =>
    intro y hy
    simp only [List.scanl_nil, List.mem_singleton] at hy
    exact hy
  | cons op rest ih =>
    intro y hy
    simp only [List.scanl_cons, List.singleton_append, List.mem_cons] at hy
    rcases hy with hy | hy
    · exact hy
    · exact ih y hy

/-- The initial status is the head of (hence a member of) any status trace. -/
theorem head_mem_scanl (x : Option ArtifactStatus) (ops : List GenOp) :
    x ∈ List.scanl statusStep x ops := by
  cases ops with
  | nil => simp [List.scanl_nil]
  | cons op rest => simp [List.scanl_cons]

/-- Lemma: `statusStep` written as an option map of the written status. -/
theorem statusStep_eq (x : Option ArtifactStatus) (op : GenOp) :
    statusStep x op = x.map fun _ => opStatus op := rfl

/-- The folded status after a chunk sequence: unchanged when there are no
chunks, otherwise `streaming` (when the artifact is present). -/
theorem foldl_statusStep_chunkOps (mode : ArtifactType) (chunks : List StreamChunk) :
    ∀ (acc : String) (x : Option ArtifactStatus),
      (chunkOps mode acc chunks).foldl statusStep x
        = if chunks.isEmpty then x else x.map fun _ => ArtifactStatus.streaming := by
  induction chunks with
  | nil => intro acc x; rfl
  | cons c rest ih =>
    intro acc x
    simp only [chunkOps, List.foldl_cons, ih, List.isEmpty_cons]
    split
    · cases x <;> rfl
    · cases x <;> rfl

/-- A successfully exhausted stream with no TTS failure ends `complete`. -/
theorem foldl_statusStep_streamResult_none (mode : ArtifactType)
    (chunks : List StreamChunk) (x : Option ArtifactStatus)
    (h1 : ¬(mode = ArtifactType.video ∨ mode = ArtifactType.image)) :
    (genOps mode (.streamResult chunks none)).foldl statusStep x
      = x.map fun _ => ArtifactStatus.complete := by
  simp only [genOps, if_neg h1, ttsOps_none, List.append_nil]
  rw [List.foldl_append, foldl_statusStep_chunkOps]
  split
  · cases x <;> rfl
  · cases x <;> rfl

/-- Any failing run ends `error`. -/
theorem foldl_statusStep_failure (mode : ArtifactType) (chunks : List StreamChunk)
    (msg : String) (x : Option ArtifactStatus) :
    (genOps mode (.failure chunks msg)).foldl statusStep x
      = x.map fun _ => ArtifactStatus.error := by
  simp only [genOps]
  rw [List.foldl_append]
  by_cases h1 : mode = ArtifactType.video ∨ mode = ArtifactType.image
  · rw [if_pos h1]; cases x <;> rfl
  · rw [if_neg h1, foldl_statusStep_chunkOps]
    split
    · cases x <;> rfl
    · cases x <;> rfl

/-- A failing run's cumulative effect on the artifact: status `error` and the
diagnostic stored verbatim in `html`. -/
theorem applyOps_failure (mode : ArtifactType) (chunks : List StreamChunk)
    (msg : String) (a : Artifact) :
    (applyOps a (genOps mode (.failure chunks msg))).status = ArtifactStatus.error
    ∧ (applyOps a (genOps mode (.failure chunks msg))).html = msg := by
  have hsplit : applyOps a (genOps mode (.failure chunks msg))
      = opUpdate (GenOp.errorOp msg)
          (applyOps a (if mode = ArtifactType.video ∨ mode = ArtifactType.image
            then ([] : List GenOp) else chunkOps mode "" chunks)) := by
    simp only [genOps, applyOps]
    rw [List.foldl_append]
    rfl
  rw [hsplit]
  exact ⟨rfl, rfl⟩

/-- In ui mode, the html stored after a non-empty chunk sequence is the
fence-stripped full accumulated text. -/
theorem applyOps_chunkOps_ui_html : ∀ (chunks : List StreamChunk), chunks ≠ [] →
    ∀ (acc : String) (a : Artifact),
      (applyOps a (chunkOps ArtifactType.ui acc chunks)).html
        = stripFences (textAccum acc chunks) := by
  intro chunks
  induction chunks with
  | nil => intro h; exact absurd rfl h
  | cons c rest ih =>
    intro _ acc a
    cases hr : rest with
    | nil =>
      subst hr
      rfl
    | cons c2 rest2 =>
      subst hr
      show (applyOps (opUpdate (GenOp.chunkOp ArtifactType.ui (acc ++ c.text.getD "")
        c.grounding) a) (chunkOps ArtifactType.ui (acc ++ c.text.getD "")
        (c2 :: rest2))).html = _
      rw [ih (List.cons_ne_nil c2 rest2) (acc ++ c.text.getD "") _]
      rfl

/-- Claim C6: every decoded buffer is scheduled at `max(play_head, now)`, the
play head then advances by exactly the buffer's duration, the scheduled start
is never before `now`, and while the play head is ahead of `now` buffers are
scheduled back-to-back at the play head (zero gap). -/
theorem playback_scheduling_max_advance (st : LiveAudioState) (now duration : Rat) :
    (onAudioChunk st now duration).sources
      = st.sources ++ [{ startTime := max st.nextStartTime now, duration := duration }]
    ∧ (onAudioChunk st now duration).nextStartTime = max st.nextStartTime now + duration
    ∧ now ≤ max st.nextStartTime now
    ∧ (now ≤ st.nextStartTime → max st.nextStartTime now = st.nextStartTime) :=
  ⟨rfl, rfl, le_max_right _ _, fun h => max_eq_left h⟩

/-- Witness for C6 at a concrete state: play head 3/2 ahead of now 1, buffer
duration 1/2 is scheduled at the play head and advances it to 2. -/
theorem playback_scheduling_max_advance_witness :
    (onAudioChunk { nextStartTime := 3/2, sources := [], stopped := [] } 1 (1/2)).nextStartTime
        = 2
    ∧ max (3/2 : Rat) 1 = 3/2 := by
  have h := playback_scheduling_max_advance
    { nextStartTime := 3/2, sources := [], stopped := [] } 1 (1/2)
  exact ⟨h.2.1.trans (by norm_num), h.2.2.2 (by norm_num)⟩

/-- Claim C7: an interruption signal, arriving after any sequence of playback
events, stops every pending scheduled buffer (they all move to the stopped
set), clears the pending-buffer set and resets the play head to zero. -/
theorem interruption_resets_playback (st : LiveAudioState) (events : List LiveEvent) :
    (liveRun st (events ++ [LiveEvent.interrupted])).sources = []
    ∧ (liveRun st (events ++ [LiveEvent.interrupted])).nextStartTime = 0
    ∧ (liveRun st (events ++ [LiveEvent.interrupted])).stopped
        = (liveRun st events).stopped ++ (liveRun st events).sources := by
  have h : liveRun st (events ++ [LiveEvent.interrupted])
      = onInterrupted (liveRun st events) := by
    unfold liveRun
    rw [List.foldl_append]
    rfl
  rw [h]
  exact ⟨rfl, rfl, rfl⟩

/-- Claim C8: one heartbeat tick on a presence map with entries aged 2s, 9s,
11s and 30s under the 10s staleness threshold keeps exactly the entries aged
2s and 9s plus the ticking client's own fresh entry; the older entries are
pruned. -/
theorem heartbeat_prunes_stale_entries :
    heartbeat [("a", 98000), ("b", 91000), ("c", 89000), ("d", 70000)] "me" 100000
      = [("a", 98000), ("b", 91000), ("me", 100000)] := by decide

/-- Claim C9 counterexample: with sync enabled and the local collection
empty, the replication effect writes nothing — the previously stored value
survives instead of being overwritten by the empty collection. -/
theorem empty_sessions_not_written :
    syncSessionsEffect true [] (some demoState) = some demoState
    ∧ syncSessionsEffect true [] (some demoState) ≠ some [] := by
  exact ⟨rfl, by decide⟩

/-- Claim C9 (amended): while sync is enabled, a change to a non-empty local
session collection writes the whole serialized collection, unconditionally
overwriting the stored value; when the local collection is empty the effect
performs no write, and clearing sessions instead removes the stored value
entirely. -/
theorem session_replication_amended (sessions : List Session)
    (stored : Option (List Session)) (hne : sessions ≠ []) :
    syncSessionsEffect true sessions stored = some sessions
    ∧ syncSessionsEffect true [] stored = stored
    ∧ ∀ st, clearSessions st = ([], none) := by
  refine ⟨?_, rfl, fun st => rfl⟩
  unfold syncSessionsEffect
  rw [if_pos]
  simp [List.length_pos, hne]

/-- Witness for the amended C9 at a concrete non-empty collection. -/
theorem session_replication_amended_witness :
    syncSessionsEffect true demoState none = some demoState :=
  (session_replication_amended demoState none (by decide)).1

/-- Claim C1 counterexample: submitting one prompt in ui generation mode
creates one session with exactly 1 artifact, not 3 — the code has no 3-way
multi-style fan-out; every mode fans out to a single artifact. -/
theorem fanout_is_one_not_three :
    (handleSendMessage "Make a login form" false ArtifactType.ui false [] "s1" "a1" 0).map
        (fun s => s.artifacts.length) = [1]
    ∧ (handleSendMessage "Make a login form" false ArtifactType.ui false [] "s1" "a1" 0).map
        (fun s => s.artifacts.length) ≠ [3] := by
  exact ⟨by decide, by decide⟩

/-- Claim C1 (amended): submitting one non-empty prompt while no generation
is in flight creates exactly one new session containing exactly one artifact
(the fan-out count is 1 for every mode, including ui generation; no 3-way
multi-style mode exists in the code), and for the stream modes that single
artifact progresses to `complete` on a successfully exhausted stream and to
`error` on a failing one. -/
theorem submit_creates_single_artifact_session (prompt : String) (mode : ArtifactType)
    (thinking : Bool) (sessions : List Session) (sid aid : String) (now : Nat)
    (hprompt : (jsTrim prompt == "") = false)
    (hfresh : getSession sessions sid = none)
    (hmode : ¬(mode = ArtifactType.video ∨ mode = ArtifactType.image)) :
    handleSendMessage prompt false mode thinking sessions sid aid now
      = sessions ++ [mkNewSession sid prompt now aid mode thinking]
    ∧ (mkNewSession sid prompt now aid mode thinking).artifacts.length = 1
    ∧ (∀ chunks : List StreamChunk,
        statusOf (performGeneration sid aid mode
          (handleSendMessage prompt false mode thinking sessions sid aid now)
          (.streamResult chunks none)).1 sid aid = some ArtifactStatus.complete)
    ∧ (∀ (chunks : List StreamChunk) (msg : String),
        statusOf (performGeneration sid aid mode
          (handleSendMessage prompt false mode thinking sessions sid aid now)
          (.failure chunks msg)).1 sid aid = some ArtifactStatus.error) := by
  have hsend : handleSendMessage prompt false mode thinking sessions sid aid now
      = sessions ++ [mkNewSession sid prompt now aid mode thinking] := by
    unfold handleSendMessage
    rw [hprompt]
    rfl
  have hstat : statusOf (handleSendMessage prompt false mode thinking sessions sid aid now)
      sid aid = some (if thinking then ArtifactStatus.thinking else ArtifactStatus.streaming) := by
    rw [hsend]
    unfold statusOf getArtifact
    have hget : getSession (sessions ++ [mkNewSession sid prompt now aid mode thinking]) sid
        = some (mkNewSession sid prompt now aid mode thinking) := by
      unfold getSession at hfresh ⊢
      rw [List.find?_append, hfresh]
      simp [List.find?_cons, mkNewSession]
    rw [hget]
    simp [mkNewSession, mkInitialArtifact, List.find?_cons]
  refine ⟨hsend, rfl, ?_, ?_⟩
  · intro chunks
    show statusOf (genFinal sid aid _ (genOps mode (.streamResult chunks none))) sid aid = _
    rw [statusOf_genFinal, hstat, foldl_statusStep_streamResult_none mode chunks _ hmode]
    rfl
  · intro chunks msg
    show statusOf (genFinal sid aid _ (genOps mode (.failure chunks msg))) sid aid = _
    rw [statusOf_genFinal, hstat, foldl_statusStep_failure mode chunks msg _]
    rfl

/-- Witness for the amended C1: a concrete ui-mode submission yields one
session with one artifact, which completes on a successful empty stream. -/
theorem submit_creates_single_artifact_session_witness :
    handleSendMessage "Build a card" false ArtifactType.ui false [] "s1" "a1" 5
      = [mkNewSession "s1" "Build a card" 5 "a1" ArtifactType.ui false]
    ∧ statusOf (performGeneration "s1" "a1" ArtifactType.ui
        (handleSendMessage "Build a card" false ArtifactType.ui false [] "s1" "a1" 5)
        (.streamResult [] none)).1 "s1" "a1" = some ArtifactStatus.complete := by
  have h := submit_creates_single_artifact_session "Build a card" ArtifactType.ui false
    [] "s1" "a1" 5 (by decide) (by decide) (by decide)
  exact ⟨h.1, h.2.2.1 []⟩

/-- Claim C2 counterexample: in chat mode, a successfully completed stream
whose follow-up TTS call throws produces the status trace
`streaming → complete → error` — a transition out of the terminal state
`complete` with no retry anywhere in the operation sequence. -/
theorem tts_failure_leaves_terminal_state :
    statusTrace "s1" "a1"
        (handleSendMessage "hello" false ArtifactType.chat false [] "s1" "a1" 0)
        (traceOps { mode := ArtifactType.chat, behavior := .streamResult [] (some "TTS failed") } [])
      = [some ArtifactStatus.streaming, some ArtifactStatus.complete,
          some ArtifactStatus.error]
    ∧ (traceOps { mode := ArtifactType.chat, behavior := .streamResult [] (some "TTS failed") } []).any isRetryReset
        = false := by
  exact ⟨by decide, by decide⟩

/-- Claim C2 (amended): along every orchestrator operation trace (creation
run followed by retries) started from a non-terminal artifact, every status
transition either keeps the status, starts from `streaming`/`thinking`, is an
externally triggered retry reset, or is the chat-mode TTS-failure error write
moving `complete` to `error`; and an artifact whose trace reaches `complete`
has been `streaming` or `thinking` along the trace. -/
theorem status_transitions_amended (firstRun : GenRun) (retries : List (Bool × GenRun))
    (sid aid : String) (st : List Session)
    (h1 : statusOf st sid aid ≠ some ArtifactStatus.complete)
    (h2 : statusOf st sid aid ≠ some ArtifactStatus.error) :
    (∀ p ∈ (traceOps firstRun retries).zip
        ((statusTrace sid aid st (traceOps firstRun retries)).zip
          (statusTrace sid aid st (traceOps firstRun retries)).tail),
      allowedStep p.1 p.2.1 p.2.2)
    ∧ (some ArtifactStatus.complete ∈ statusTrace sid aid st (traceOps firstRun retries) →
        some ArtifactStatus.streaming ∈ statusTrace sid aid st (traceOps firstRun retries)
        ∨ some ArtifactStatus.thinking ∈ statusTrace sid aid st (traceOps firstRun retries)) := by
  constructor
  · intro p hp
    rw [statusTrace_eq_scanl, zip_scanl_stepsOf] at hp
    exact allowed_stepsOf_traceOps firstRun retries _ ⟨h1, h2⟩ p hp
  · intro hmem
    rw [statusTrace_eq_scanl] at hmem ⊢
    cases hx : statusOf st sid aid with
    | none =>
      rw [hx] at hmem
      exact Option.noConfusion (scanl_statusStep_none _ _ hmem)
    | some s =>
      cases s with
      | streaming => exact Or.inl (head_mem_scanl _ _)
      | thinking => exact Or.inr (head_mem_scanl _ _)
      | complete => exact absurd hx h1
      | error => exact absurd hx h2

/-- Witness for the amended C2: in the concrete chat-mode TTS-failure trace,
the completion write from `streaming` is an allowed step. -/
theorem status_transitions_amended_witness :
    allowedStep GenOp.completeOp (some ArtifactStatus.streaming)
      (some ArtifactStatus.complete) := by
  have h := status_transitions_amended
    { mode := ArtifactType.chat, behavior := .streamResult [] (some "x") } []
    "s1" "a1" (handleSendMessage "hello" false ArtifactType.chat false [] "s1" "a1" 0)
    (by decide) (by decide)
  exact h.1 (GenOp.completeOp, some ArtifactStatus.streaming, some ArtifactStatus.complete)
    (by decide)

/-- Claim C3 counterexample: the artifact was created in ui mode with status
`streaming` (thinking off); after its run fails, a retry issued while the
thinking toggle is on resets it to `thinking` — not its initial streaming
state — and re-running under the now-selected chat mode stores the raw
fenced chunk text (`html` and `text` both `(three backticks)x`), while a
re-run under the artifact's originally assigned ui mode would have stored the
stripped `x`: the retried generation follows the current settings, not the
artifact's original ones. -/
theorem retry_uses_current_settings :
    statusOf retryDemoAfterRetry "s1" "a1" = some ArtifactStatus.thinking
    ∧ some ArtifactStatus.thinking ≠ some ArtifactStatus.streaming
    ∧ (getArtifact (performGeneration "s1" "a1" ArtifactType.chat retryDemoAfterRetry
          (.streamResult [{ text := some "```x", grounding := none }] none)).1
        "s1" "a1").map (fun a => (a.html, a.text))
      = some ("```x", some "```x")
    ∧ (getArtifact (performGeneration "s1" "a1" ArtifactType.ui retryDemoAfterRetry
          (.streamResult [{ text := some "```x", grounding := none }] none)).1
        "s1" "a1").map (fun a => a.html)
      = some "x" := by
  exact ⟨by decide, by decide, by decide, by decide⟩

/-- Claim C3 (amended): retry is a no-op while any generation is in flight;
otherwise it resets the target artifact's status to streaming or thinking
according to the thinking toggle current at retry time, clears its prior
`html` and `text`, and re-invokes generation with exactly the session's
original prompt (under the current mode settings), touching no other
artifact. -/
theorem retry_amended (sessions : List Session) (isThinking : Bool)
    (sid aid : String) (session : Session)
    (hfind : getSession sessions sid = some session) :
    handleRetry sessions true isThinking sid aid = (sessions, none)
    ∧ (handleRetry sessions false isThinking sid aid).2 = some session.prompt
    ∧ (getArtifact (handleRetry sessions false isThinking sid aid).1 sid aid).map
        (fun a => (a.status, a.html, a.text))
      = (getArtifact sessions sid aid).map
          (fun _ => ((if isThinking then ArtifactStatus.thinking else ArtifactStatus.streaming),
            "", some ""))
    ∧ ∀ sid' aid', ¬(sid' = sid ∧ aid' = aid) →
        getArtifact (handleRetry sessions false isThinking sid aid).1 sid' aid'
          = getArtifact sessions sid' aid' := by
  have hfind' : sessions.find? (fun s => s.id == sid) = some session := hfind
  have hstate : (handleRetry sessions false isThinking sid aid).1
      = updateArtifact sessions sid aid (opUpdate (.retryOp isThinking)) := by
    unfold handleRetry
    rw [hfind']
    rfl
  refine ⟨?_, ?_, ?_, ?_⟩
  · unfold handleRetry
    rw [hfind']
    rfl
  · unfold handleRetry
    rw [hfind']
    rfl
  · rw [hstate, getArtifact_updateArtifact_self _ _ _ _ (opUpdate_id _)]
    cases getArtifact sessions sid aid with
    | none => rfl
    | some a => rfl
  · intro sid' aid' hne
    rw [hstate]
    exact getArtifact_updateArtifact_frame sessions sid aid sid' aid' _ (opUpdate_id _) hne

/-- Witness for the amended C3 on a concrete two-session store. -/
theorem retry_amended_witness :
    handleRetry demoState true false "s1" "a1" = (demoState, none)
    ∧ (handleRetry demoState false false "s1" "a1").2 = some "p1"
    ∧ getArtifact (handleRetry demoState false false "s1" "a1").1 "s1" "a2"
        = getArtifact demoState "s1" "a2" := by
  have h := retry_amended demoState false "s1" "a1" demoSession1 (by decide)
  exact ⟨h.1, h.2.1, h.2.2.2 "s1" "a2" (by decide)⟩

/-- Claim C4: a generation run that fails leaves the failing artifact with
status `error` and the diagnostic stored verbatim in its content field
(`html`), leaves every sibling artifact and every other session untouched,
and the application-level loading flag is unconditionally reset to `false`
by the `finally` block — no application-level failure state exists. -/
theorem adapter_failure_contained (mode : ArtifactType) (sid aid : String)
    (st : List Session) (chunks : List StreamChunk) (msg : String) :
    (getArtifact (performGeneration sid aid mode st (.failure chunks msg)).1 sid aid).map
        (fun a => (a.status, a.html))
      = (getArtifact st sid aid).map (fun _ => (ArtifactStatus.error, msg))
    ∧ (∀ sid' aid', ¬(sid' = sid ∧ aid' = aid) →
        getArtifact (performGeneration sid aid mode st (.failure chunks msg)).1 sid' aid'
          = getArtifact st sid' aid')
    ∧ (performGeneration sid aid mode st (.failure chunks msg)).2 = false := by
  refine ⟨?_, ?_, rfl⟩
  · show (getArtifact (genFinal sid aid st (genOps mode (.failure chunks msg))) sid aid).map
      _ = _
    rw [getArtifact_genFinal_self]
    cases getArtifact st sid aid with
    | none => rfl
    | some a =>
      have h := applyOps_failure mode chunks msg a
      simp only [Option.map_some']
      rw [h.1, h.2]
  · intro sid' aid' hne
    exact getArtifact_genFinal_frame sid aid sid' aid' _ st hne

/-- Witness for C4 on a concrete store: the failing artifact records the
diagnostic and turns `error`; an artifact of the other session is unchanged. -/
theorem adapter_failure_contained_witness :
    (getArtifact (performGeneration "s1" "a1" ArtifactType.ui demoState
        (.failure [] "boom")).1 "s1" "a1").map (fun a => (a.status, a.html))
      = some (ArtifactStatus.error, "boom")
    ∧ getArtifact (performGeneration "s1" "a1" ArtifactType.ui demoState
        (.failure [] "boom")).1 "s2" "b1" = getArtifact demoState "s2" "b1" := by
  have h := adapter_failure_contained ArtifactType.ui "s1" "a1" demoState [] "boom"
  exact ⟨h.1.trans (by decide), h.2.1 "s2" "b1" (by decide)⟩

/-- Claim C5 counterexample: in ui mode a stream whose final accumulated text
is a fenced html payload stores content with the fences removed but with the
surrounding whitespace kept — the stored content is the newline-wrapped
payload, not the trimmed one the claim states. -/
theorem fence_strip_no_trim :
    (getArtifact (performGeneration "s1" "a1" ArtifactType.ui
        (handleSendMessage "p" false ArtifactType.ui false [] "s1" "a1" 0)
        (.streamResult [{ text := some "```html\n<div/>\n```", grounding := none }] none)).1
      "s1" "a1").map (fun a => a.html)
      = some "\n<div/>\n"
    ∧ some "\n<div/>\n" ≠ some "<div/>" := by
  exact ⟨by decide, by decide⟩

/-- Claim C5 (amended): when a ui-mode stream completes with final
accumulated text consisting of the fenced payload, the stored content has the
fencing markers removed but the surrounding whitespace preserved: it equals
the newline-wrapped payload. -/
theorem fence_strip_amended (sid aid : String) (st : List Session)
    (chunks : List StreamChunk) (ttsError : Option String)
    (hne : chunks ≠ [])
    (hconcat : textAccum "" chunks = "```html\n<div/>\n```") :
    (getArtifact (performGeneration sid aid ArtifactType.ui st
        (.streamResult chunks ttsError)).1 sid aid).map (fun a => a.html)
      = (getArtifact st sid aid).map fun _ => "\n<div/>\n" := by
  show (getArtifact (genFinal sid aid st
    (genOps ArtifactType.ui (.streamResult chunks ttsError))) sid aid).map _ = _
  rw [getArtifact_genFinal_self]
  cases getArtifact st sid aid with
  | none => rfl
  | some a =>
    simp only [Option.map_some']
    have hops : genOps ArtifactType.ui (.streamResult chunks ttsError)
        = chunkOps ArtifactType.ui "" chunks ++ [GenOp.completeOp] := by
      simp only [genOps]
      rw [if_neg (by decide), ttsOps_not_chat _ _ (by decide), List.append_nil]
    rw [hops]
    have happ : applyOps a (chunkOps ArtifactType.ui "" chunks ++ [GenOp.completeOp])
        = opUpdate GenOp.completeOp (applyOps a (chunkOps ArtifactType.ui "" chunks)) := by
      unfold applyOps
      rw [List.foldl_append]
      rfl
    rw [happ]
    show some (applyOps a (chunkOps ArtifactType.ui "" chunks)).html = _
    rw [applyOps_chunkOps_ui_html chunks hne "" a, hconcat]
    decide

/-- Witness for the amended C5 at a concrete single-chunk stream. -/
theorem fence_strip_amended_witness :
    (getArtifact (performGeneration "s1" "a1" ArtifactType.ui demoState
        (.streamResult [{ text := some "```html\n<div/>\n```", grounding := none }] none)).1
      "s1" "a1").map (fun a => a.html) = some "\n<div/>\n" := by
  have h := fence_strip_amended "s1" "a1" demoState
    [{ text := some "```html\n<div/>\n```", grounding := none }] none
    (by decide) (by decide)
  exact h.trans (by decide)

/-- Claim C10: every single state update a generation task performs (chunk
write, completion, media completion, error write, or retry reset) preserves
every session's id, prompt, timestamp and artifact-id sequence, rewrites
exactly the artifact `aid` of session `sid` by the operation's update, and
leaves every other artifact of every session unchanged. -/
theorem generation_update_frame (sid aid : String) (st : List Session) (op : GenOp) :
    (applyOp sid aid st op).map sessionShape = st.map sessionShape
    ∧ getArtifact (applyOp sid aid st op) sid aid
        = (getArtifact st sid aid).map (opUpdate op)
    ∧ ∀ sid' aid', ¬(sid' = sid ∧ aid' = aid) →
        getArtifact (applyOp sid aid st op) sid' aid' = getArtifact st sid' aid' :=
  ⟨sessionShape_updateArtifact st sid aid _ (opUpdate_id op),
    getArtifact_applyOp_self sid aid st op,
    fun sid' aid' hne => getArtifact_applyOp_frame sid aid sid' aid' st op hne⟩

/-- Witness for C10: a concrete completion write touches neither the sibling
artifact nor the other session. -/
theorem generation_update_frame_witness :
    (applyOp "s1" "a1" demoState GenOp.completeOp).map sessionShape
        = demoState.map sessionShape
    ∧ getArtifact (applyOp "s1" "a1" demoState GenOp.completeOp) "s1" "a2"
        = getArtifact demoState "s1" "a2"
    ∧ getArtifact (applyOp "s1" "a1" demoState GenOp.completeOp) "s2" "b1"
        = getArtifact demoState "s2" "b1" := by
  have h := generation_update_frame "s1" "a1" demoState GenOp.completeOp
  exact ⟨h.1, h.2.2 "s1" "a2" (by decide), h.2.2 "s2" "b1" (by decide)⟩
